import Mathlib

/-!
# Lane Keeping System — shallow embedding

Embedding of `src/LaneKeepingSystem/LaneKeepingSystem.cpp` (namespace `Xycar`,
class `LaneKeepingSystem<PREC>`). The floating-point precision type `PREC` is
modelled as `ℚ`; `int32_t` values are modelled as `ℤ` (all quantities involved
are far from the 32-bit range in the scenarios considered).

External collaborators (`HoughTransformLaneDetector`, `StanleyController`) are
modelled as oracle functions supplied to the control cycle; the
`MovingAverageFilter` is not part of the source tree and is modelled from the
specification.
-/

namespace Xycar

/-- C++ `static_cast<int32_t>` applied to a real value: truncation toward zero. -/
def truncQ (q : ℚ) : ℤ := if 0 ≤ q then ⌊q⌋ else ⌈q⌉

/-- C++ `std::round`: rounding to nearest, halves away from zero. -/
def croundQ (q : ℚ) : ℤ := if 0 ≤ q then ⌊q + 1/2⌋ else ⌈q - 1/2⌉

/-- Modelled from the spec: the `SmoothingFilter` / `MovingAverageFilter` is not
under `src/`; §4.1 of the spec defines it as a bounded FIFO history of integer
samples of fixed capacity `sampleSize`, whose result is the arithmetic mean of
the currently held samples. Empty-history policy (spec leaves the choice open):
result `0` — unreachable in the control loop, which always adds a sample first. -/
structure MovingAverageFilter where
  sampleSize : ℕ
  samples : List ℤ
deriving DecidableEq, Repr

/-- Modelled from the spec: `addSample(x)` appends `x` to the bounded history,
evicting the oldest entry if at capacity. -/
def MovingAverageFilter.addSample (f : MovingAverageFilter) (x : ℤ) : MovingAverageFilter :=
  if f.samples.length < f.sampleSize then
    { f with samples := f.samples ++ [x] }
  else
    { f with samples := f.samples.tail ++ [x] }

/-- Modelled from the spec: `getResult()` returns the mean of all currently
held samples. -/
def MovingAverageFilter.getResult (f : MovingAverageFilter) : ℚ :=
  (f.samples.sum : ℚ) / (f.samples.length : ℚ)

/-- The stored camera frame (`cv::Mat mFrame`); only its column count
(`mFrame.cols`) enters the control computation, the pixel content is consumed
exclusively by the external detector oracle. -/
structure Frame where
  cols : ℤ
deriving DecidableEq, Repr

/-- The actuation command `xycar_msgs::xycar_motor` with its two fields set by
`drive`. -/
structure MotorMessage where
  angle : ℤ
  speed : ℤ
deriving DecidableEq, Repr

/-- The member state of `LaneKeepingSystem<PREC>`: the mutable speed state, the
moving-average filter, the latest frame slot (`none` ↔ `mFrame.empty()`), and
the configuration parameters loaded once by `setParams` (plus the class
constant `kXycarSteeringAangleLimit`, kept as a field since its defining header
is outside the source tree; the spec fixes it at a vehicle-specific constant
such as 50). -/
structure LKSState where
  xycarSpeed : ℚ
  xycarMaxSpeed : ℚ
  xycarMinSpeed : ℚ
  xycarSpeedControlThreshold : ℚ
  accelerationStep : ℚ
  decelerationStep : ℚ
  stanleyGain : ℚ
  stanleyLookAheadDistance : ℚ
  steeringAngleLimit : ℚ
  movingAverage : MovingAverageFilter
  frame : Option Frame
  debugging : Bool
deriving DecidableEq, Repr

/-- Line 80: the sample fed to the filter, `(leftPosisionX + rightPositionX) / 2`
with C++ integer division (truncation toward zero). -/
def midSample (leftX rightX : ℤ) : ℤ := Int.tdiv (leftX + rightX) 2

/-- Line 81: `estimatedPositionX = static_cast<int32_t>(mMovingAverage->getResult())`. -/
def estimatedPosition (ma : MovingAverageFilter) : ℤ := truncQ ma.getResult

/-- Line 82: `errorFromMid = estimatedPositionX - static_cast<int32_t>(mFrame.cols / 2) + 6`. -/
def errorFromMid (estimated cols : ℤ) : ℤ := estimated - Int.tdiv cols 2 + 6

/-- Line 86: `std::max(-limit, std::min(stanleyResult, limit))`. -/
def clampSteering (limit raw : ℚ) : ℚ := max (-limit) (min raw limit)

/-- Lines 109–121, `LaneKeepingSystem::speedControl`: decelerate (clamped below
at `mXycarMinSpeed`) when `|steeringAngle|` exceeds the threshold, otherwise
accelerate (clamped above at `mXycarMaxSpeed`). Only `mXycarSpeed` is written. -/
def speedControl (s : LKSState) (steeringAngle : ℚ) : LKSState :=
  if |steeringAngle| > s.xycarSpeedControlThreshold then
    { s with xycarSpeed := max (s.xycarSpeed - s.decelerationStep) s.xycarMinSpeed }
  else
    { s with xycarSpeed := min (s.xycarSpeed + s.accelerationStep) s.xycarMaxSpeed }

/-- Lines 143–155, `LaneKeepingSystem::drive`: builds the motor message from
`std::round` of the steering angle and of the current speed and publishes it;
it writes no member state, so it returns the state unchanged together with the
published message. -/
def drive (s : LKSState) (steeringAngle : ℚ) : LKSState × MotorMessage :=
  (s, { angle := croundQ steeringAngle, speed := croundQ s.xycarSpeed })

/-- One iteration of the `while` loop body of `LaneKeepingSystem::run`
(lines 71–98). The external collaborators are passed as oracles: `detect` is
`mHoughTransformLaneDetector->getLanePosition` and `stanley` is the composite
`mStanley->calculateSteeringAngle(error, 0, speed); mStanley->getResult()`
(arguments in that order: cross-track error, heading error, speed). Returns
the successor member state and the list of messages published during the
iteration. If `mFrame.empty()` the body `continue`s, touching nothing. The
debug branch (lines 91–97) only renders and is not part of the state. -/
def runStep (detect : Frame → ℤ × ℤ) (stanley : ℤ → ℚ → ℚ → ℚ) (s : LKSState) :
    LKSState × List MotorMessage :=
  match s.frame with
  | none => (s, [])
  | some frame =>
    let lanePos := detect frame
    let ma := s.movingAverage.addSample (midSample lanePos.1 lanePos.2)
    let s1 : LKSState := { s with movingAverage := ma }
    let estimatedPositionX : ℤ := estimatedPosition ma
    let err : ℤ := errorFromMid estimatedPositionX frame.cols
    let stanleyResult : ℚ := stanley err 0 s1.xycarSpeed
    let steeringAngle : ℚ := clampSteering s1.steeringAngleLimit stanleyResult
    let s2 : LKSState := speedControl s1 steeringAngle
    let out := drive s2 steeringAngle
    (out.1, [out.2])

/-- `n` successive iterations of the loop body, collecting every published
message in order. -/
def runMany (detect : Frame → ℤ × ℤ) (stanley : ℤ → ℚ → ℚ → ℚ) (s : LKSState) :
    ℕ → LKSState × List MotorMessage
  | 0 => (s, [])
  | n + 1 =>
    let fst := runStep detect stanley s
    let rest := runMany detect stanley fst.1 n
    (rest.1, fst.2 ++ rest.2)

/-- Repeated application of `speedControl` over a sequence of per-cycle
steering angles (the speed state evolving across cycles). -/
def speedControlRun (s : LKSState) (angles : List ℚ) : LKSState :=
  angles.foldl speedControl s

/-- Modelled from the spec: the per-cycle algorithm of §4.5 written as the
spec states it (steps 1–8), parameterised by the function `centerOf` used in
step 3 to turn the filter's real-valued result into the integer smoothed
center (the spec's words say `round`; the claim about the actual code is
settled by comparing `runStep` with this pipeline at `round` and at `truncQ`).
The fixed offset of step 4 is the constant `+6` of the source. -/
def specCycle (centerOf : ℚ → ℤ) (detect : Frame → ℤ × ℤ) (stanley : ℤ → ℚ → ℚ → ℚ)
    (s : LKSState) : LKSState × List MotorMessage :=
  match s.frame with
  | none => (s, [])
  | some frame =>
    let lanePos := detect frame
    let ma := s.movingAverage.addSample (Int.tdiv (lanePos.1 + lanePos.2) 2)
    let center := centerOf ma.getResult
    let err := center - Int.tdiv frame.cols 2 + 6
    let rawSteer := stanley err 0 s.xycarSpeed
    let steer := max (-s.steeringAngleLimit) (min rawSteer s.steeringAngleLimit)
    let newSpeed :=
      if |steer| > s.xycarSpeedControlThreshold then
        max (s.xycarSpeed - s.decelerationStep) s.xycarMinSpeed
      else
        min (s.xycarSpeed + s.accelerationStep) s.xycarMaxSpeed
    ({ s with movingAverage := ma, xycarSpeed := newSpeed },
     [{ angle := croundQ steer, speed := croundQ newSpeed }])

/-- The filter state after the current cycle's `addSample` call (the local
value `ma` holds after line 80 of the loop body). -/
def cycleFilter (detect : Frame → ℤ × ℤ) (s : LKSState) (f : Frame) : MovingAverageFilter :=
  s.movingAverage.addSample (midSample (detect f).1 (detect f).2)

/-- The local variable `steeringAngle` of the loop body (line 86): the Stanley
oracle's raw output at this cycle's cross-track error, clamped to the steering
limit. -/
def cycleSteeringAngle (detect : Frame → ℤ × ℤ) (stanley : ℤ → ℚ → ℚ → ℚ)
    (s : LKSState) (f : Frame) : ℚ :=
  clampSteering s.steeringAngleLimit
    (stanley (errorFromMid (estimatedPosition (cycleFilter detect s f)) f.cols)
      0 s.xycarSpeed)

/-- Scenario fixture: the 640-column frame of the spec's mid-lane scenario. -/
def testFrame : Frame := { cols := 640 }

/-- Scenario fixture: control state with empty smoothing history, start speed 0,
bounds [0, 10], threshold 20, steps (accel 1, decel 2), steering limit 50, a
640-column frame buffered. -/
def testState : LKSState :=
  { xycarSpeed := 0, xycarMaxSpeed := 10, xycarMinSpeed := 0,
    xycarSpeedControlThreshold := 20, accelerationStep := 1, decelerationStep := 2,
    stanleyGain := 1, stanleyLookAheadDistance := 1, steeringAngleLimit := 50,
    movingAverage := { sampleSize := 5, samples := [] }, frame := some testFrame,
    debugging := false }

/-- Detector oracle returning the spec scenario's lane positions (200, 440). -/
def testDetect : Frame → ℤ × ℤ := fun _ => (200, 440)

/-- Stanley oracle returning the cross-track error itself, making the error
value observable in the emitted command. -/
def testStanley : ℤ → ℚ → ℚ → ℚ := fun e _ _ => (e : ℚ)

/-- Fixture distinguishing truncation from rounding: the filter already holds
samples `[1, 2]` (capacity 3) and the frame has 0 columns, so the center term
of the error vanishes. -/
def c4State : LKSState :=
  { testState with movingAverage := { sampleSize := 3, samples := [1, 2] },
                   frame := some { cols := 0 } }

/-- Detector oracle returning (2, 2), so the added midpoint sample is 2 and the
filter mean becomes 5/3. -/
def c4Detect : Frame → ℤ × ℤ := fun _ => (2, 2)

/-- Fixture for the never-received-a-frame state: `mFrame.empty()` holds. -/
def idleState : LKSState := { testState with frame := none }

/-- Fixture for the spec's speed-control scenario: speed 10, threshold 5,
deceleration step 2, minimum speed 3. -/
def c2State : LKSState :=
  { testState with xycarSpeed := 10, xycarMaxSpeed := 50, xycarMinSpeed := 3,
                   xycarSpeedControlThreshold := 5, frame := none }

/-- Fixture with speed 100 strictly above the maximum 20 and deceleration step 1:
one decelerating update leaves it above the maximum. -/
def c8FastState : LKSState :=
  { c2State with xycarSpeed := 100, xycarMaxSpeed := 20, xycarMinSpeed := 0,
                 decelerationStep := 1 }

/-- Fixture with speed 1 strictly below the minimum 10 and acceleration step 1:
one accelerating update leaves it below the minimum. -/
def c8SlowState : LKSState :=
  { c2State with xycarSpeed := 1, xycarMaxSpeed := 20, xycarMinSpeed := 10,
                 accelerationStep := 1 }

/-! ## Helper lemmas -/

/-- `speedControl` writes only `mXycarSpeed`; every other member is preserved. -/
theorem speedControl_preserves (s : LKSState) (a : ℚ) :
    (speedControl s a).xycarMaxSpeed = s.xycarMaxSpeed ∧
    (speedControl s a).xycarMinSpeed = s.xycarMinSpeed ∧
    (speedControl s a).xycarSpeedControlThreshold = s.xycarSpeedControlThreshold ∧
    (speedControl s a).accelerationStep = s.accelerationStep ∧
    (speedControl s a).decelerationStep = s.decelerationStep ∧
    (speedControl s a).movingAverage = s.movingAverage ∧
    (speedControl s a).frame = s.frame := by
  unfold speedControl
  split <;> exact ⟨rfl, rfl, rfl, rfl, rfl, rfl, rfl⟩

/-- The new speed written by `speedControl`, as a formula. -/
theorem speedControl_speed (s : LKSState) (a : ℚ) :
    (speedControl s a).xycarSpeed =
      if |a| > s.xycarSpeedControlThreshold then
        max (s.xycarSpeed - s.decelerationStep) s.xycarMinSpeed
      else
        min (s.xycarSpeed + s.accelerationStep) s.xycarMaxSpeed := by
  unfold speedControl
  split <;> rfl

/-- A speed within the configured bounds stays within them after one
`speedControl` update, provided both ramp steps are nonnegative. -/
theorem speedControl_bounds (s : LKSState) (a : ℚ)
    (h1 : s.xycarMinSpeed ≤ s.xycarSpeed) (h2 : s.xycarSpeed ≤ s.xycarMaxSpeed)
    (ha : 0 ≤ s.accelerationStep) (hd : 0 ≤ s.decelerationStep) :
    s.xycarMinSpeed ≤ (speedControl s a).xycarSpeed ∧
    (speedControl s a).xycarSpeed ≤ s.xycarMaxSpeed := by
  rw [speedControl_speed]
  split
  · exact ⟨le_max_right _ _, max_le (by linarith) (h1.trans h2)⟩
  · exact ⟨le_min (by linarith) (h1.trans h2), min_le_right _ _⟩

/-- Characterisation of one active loop iteration: with a frame buffered, the
iteration updates the filter, clamps the Stanley output, updates the speed with
the clamped angle, and publishes the single rounded command. -/
theorem runStep_active (detect : Frame → ℤ × ℤ) (stanley : ℤ → ℚ → ℚ → ℚ)
    (s : LKSState) (f : Frame) (hf : s.frame = some f) :
    runStep detect stanley s =
      (speedControl { s with movingAverage := cycleFilter detect s f }
         (cycleSteeringAngle detect stanley s f),
       [{ angle := croundQ (cycleSteeringAngle detect stanley s f),
          speed := croundQ (speedControl { s with movingAverage := cycleFilter detect s f }
            (cycleSteeringAngle detect stanley s f)).xycarSpeed }]) := by
  simp only [runStep, hf, drive, cycleFilter, cycleSteeringAngle]

/-- An idle iteration (no frame buffered) leaves the state untouched and
publishes nothing. -/
theorem runStep_idle (detect : Frame → ℤ × ℤ) (stanley : ℤ → ℚ → ℚ → ℚ)
    (s : LKSState) (hf : s.frame = none) :
    runStep detect stanley s = (s, []) := by
  simp only [runStep, hf]

/-! ## Claims -/

/-- Claim C1: in every active cycle the steering angle used for speed control
and for emission is the raw Stanley output clamped to
`[-steeringLimit, +steeringLimit]`; it always lies within those bounds (for a
nonnegative limit), and with limit 50 and raw output 1000 the clamped angle is
exactly 50. -/
theorem steeringAngle_clamped_within_limit (detect : Frame → ℤ × ℤ)
    (stanley : ℤ → ℚ → ℚ → ℚ) (s : LKSState) (f : Frame)
    (hf : s.frame = some f) (hlim : 0 ≤ s.steeringAngleLimit) :
    (-s.steeringAngleLimit ≤ cycleSteeringAngle detect stanley s f ∧
      cycleSteeringAngle detect stanley s f ≤ s.steeringAngleLimit) ∧
    cycleSteeringAngle detect stanley s f =
      clampSteering s.steeringAngleLimit
        (stanley (errorFromMid (estimatedPosition (cycleFilter detect s f)) f.cols)
          0 s.xycarSpeed) ∧
    (runStep detect stanley s).1 =
      speedControl { s with movingAverage := cycleFilter detect s f }
        (cycleSteeringAngle detect stanley s f) ∧
    (runStep detect stanley s).2.map MotorMessage.angle =
      [croundQ (cycleSteeringAngle detect stanley s f)] ∧
    clampSteering 50 1000 = 50 := by
  refine ⟨⟨?_, ?_⟩, rfl, ?_, ?_, by norm_num [clampSteering]⟩
  · exact le_max_left _ _
  · exact max_le (neg_le_self hlim) (min_le_right _ _)
  · rw [runStep_active detect stanley s f hf]
  · rw [runStep_active detect stanley s f hf]
    rfl

/-- Witness for C1 at the concrete mid-lane fixture. -/
theorem steeringAngle_clamped_within_limit_witness :
    testState.frame = some testFrame ∧ (0 : ℚ) ≤ testState.steeringAngleLimit ∧
    ((-testState.steeringAngleLimit ≤
        cycleSteeringAngle testDetect testStanley testState testFrame ∧
      cycleSteeringAngle testDetect testStanley testState testFrame ≤
        testState.steeringAngleLimit) ∧
    cycleSteeringAngle testDetect testStanley testState testFrame =
      clampSteering testState.steeringAngleLimit
        (testStanley
          (errorFromMid (estimatedPosition (cycleFilter testDetect testState testFrame))
            testFrame.cols)
          0 testState.xycarSpeed) ∧
    (runStep testDetect testStanley testState).1 =
      speedControl
        { testState with movingAverage := cycleFilter testDetect testState testFrame }
        (cycleSteeringAngle testDetect testStanley testState testFrame) ∧
    (runStep testDetect testStanley testState).2.map MotorMessage.angle =
      [croundQ (cycleSteeringAngle testDetect testStanley testState testFrame)] ∧
    clampSteering 50 1000 = 50) :=
  ⟨rfl, by norm_num [testState],
   steeringAngle_clamped_within_limit testDetect testStanley testState testFrame rfl
     (by norm_num [testState])⟩

/-- Claim C2: one `speedControl` update is a pure function of the previous
speed, the steering angle, and the configured constants (the filter, frame and
debug members do not enter): above the threshold the speed decelerates by the
deceleration step clamped below at the minimum, otherwise — including exact
equality with the threshold — it accelerates by the acceleration step clamped
above at the maximum; with speed 10, threshold 5, steering 8, deceleration
step 2 and minimum 3 the new speed is 8. -/
theorem speedControl_update_formula (sp mx mn th acc dec g la lim : ℚ)
    (ma : MovingAverageFilter) (fr : Option Frame) (dbg : Bool) (a : ℚ) :
    (speedControl
        { xycarSpeed := sp, xycarMaxSpeed := mx, xycarMinSpeed := mn,
          xycarSpeedControlThreshold := th, accelerationStep := acc,
          decelerationStep := dec, stanleyGain := g, stanleyLookAheadDistance := la,
          steeringAngleLimit := lim, movingAverage := ma, frame := fr,
          debugging := dbg } a).xycarSpeed =
      (if |a| > th then max (sp - dec) mn else min (sp + acc) mx) ∧
    (|a| = th →
      (speedControl
          { xycarSpeed := sp, xycarMaxSpeed := mx, xycarMinSpeed := mn,
            xycarSpeedControlThreshold := th, accelerationStep := acc,
            decelerationStep := dec, stanleyGain := g, stanleyLookAheadDistance := la,
            steeringAngleLimit := lim, movingAverage := ma, frame := fr,
            debugging := dbg } a).xycarSpeed = min (sp + acc) mx) ∧
    (speedControl c2State 8).xycarSpeed = 8 := by
  refine ⟨speedControl_speed _ _, ?_, ?_⟩
  · intro h
    rw [speedControl_speed]
    simp [h]
  · rw [speedControl_speed]
    norm_num [c2State, testState]

/-- Witness for C2 at a steering angle exactly equal to the threshold. -/
theorem speedControl_update_formula_witness :
    |(5 : ℚ)| = 5 ∧
    (speedControl
        { xycarSpeed := 10, xycarMaxSpeed := 50, xycarMinSpeed := 3,
          xycarSpeedControlThreshold := 5, accelerationStep := 1,
          decelerationStep := 2, stanleyGain := 1, stanleyLookAheadDistance := 1,
          steeringAngleLimit := 50, movingAverage := { sampleSize := 5, samples := [] },
          frame := none, debugging := false } 5).xycarSpeed = min (10 + 1) 50 :=
  ⟨by norm_num,
   (speedControl_update_formula 10 50 3 5 1 2 1 1 50
      { sampleSize := 5, samples := [] } none false 5).2.1 (by norm_num)⟩

/-- Claim C10: the speed-update and publish steps mutate only the vehicle speed
state: `speedControl` preserves the smoothing-filter history, the stored frame
and every configured parameter, and `drive` publishes without altering any
member state. -/
theorem speedControl_drive_frame_effect (s : LKSState) (a : ℚ) :
    (speedControl s a).movingAverage = s.movingAverage ∧
    (speedControl s a).frame = s.frame ∧
    (speedControl s a).xycarMaxSpeed = s.xycarMaxSpeed ∧
    (speedControl s a).xycarMinSpeed = s.xycarMinSpeed ∧
    (speedControl s a).xycarSpeedControlThreshold = s.xycarSpeedControlThreshold ∧
    (speedControl s a).accelerationStep = s.accelerationStep ∧
    (speedControl s a).decelerationStep = s.decelerationStep ∧
    (speedControl s a).stanleyGain = s.stanleyGain ∧
    (speedControl s a).stanleyLookAheadDistance = s.stanleyLookAheadDistance ∧
    (speedControl s a).steeringAngleLimit = s.steeringAngleLimit ∧
    (speedControl s a).debugging = s.debugging ∧
    (drive s a).1 = s := by
  unfold speedControl drive
  split <;>
    exact ⟨rfl, rfl, rfl, rfl, rfl, rfl, rfl, rfl, rfl, rfl, rfl, rfl⟩

/-- Claim C3: the vehicle speed never leaves `[minSpeed, maxSpeed]`: from a
start speed within the bounds and with nonnegative ramp steps, the speed after
any sequence of `speedControl` updates with arbitrary steering angles — hence
after every individual update of such a sequence — remains within
`[minSpeed, maxSpeed]`. -/
theorem speed_invariant_in_bounds (s : LKSState)
    (h1 : s.xycarMinSpeed ≤ s.xycarSpeed) (h2 : s.xycarSpeed ≤ s.xycarMaxSpeed)
    (ha : 0 ≤ s.accelerationStep) (hd : 0 ≤ s.decelerationStep) :
    ∀ angles : List ℚ,
      s.xycarMinSpeed ≤ (speedControlRun s angles).xycarSpeed ∧
      (speedControlRun s angles).xycarSpeed ≤ s.xycarMaxSpeed := by
  intro angles
  induction angles generalizing s with
  | nil => exact ⟨h1, h2⟩
  | cons a l ih =>
    have hstep := speedControl_bounds s a h1 h2 ha hd
    have hpres := speedControl_preserves s a
    have hrec := ih (speedControl s a)
      (hpres.2.1 ▸ hstep.1) (hpres.1 ▸ hstep.2)
      (hpres.2.2.2.1 ▸ ha) (hpres.2.2.2.2.1 ▸ hd)
    have hmin : (speedControl s a).xycarMinSpeed = s.xycarMinSpeed := hpres.2.1
    have hmax : (speedControl s a).xycarMaxSpeed = s.xycarMaxSpeed := hpres.1
    rw [hmin, hmax] at hrec
    exact hrec

/-- Witness for C3: the scenario state ramped through two cycles (one sharp
steer, one straight). -/
theorem speed_invariant_in_bounds_witness :
    testState.xycarMinSpeed ≤ testState.xycarSpeed ∧
    testState.xycarSpeed ≤ testState.xycarMaxSpeed ∧
    (0 : ℚ) ≤ testState.accelerationStep ∧ (0 : ℚ) ≤ testState.decelerationStep ∧
    (testState.xycarMinSpeed ≤ (speedControlRun testState [30, 1]).xycarSpeed ∧
      (speedControlRun testState [30, 1]).xycarSpeed ≤ testState.xycarMaxSpeed) :=
  ⟨by norm_num [testState], by norm_num [testState], by norm_num [testState],
   by norm_num [testState],
   speed_invariant_in_bounds testState (by norm_num [testState])
     (by norm_num [testState]) (by norm_num [testState]) (by norm_num [testState])
     [30, 1]⟩

/-- Claim C5: while no frame has ever been received, every control cycle is
skipped: for arbitrarily many iterations and for every detector and steering
oracle (so neither is consulted), the whole member state — filter history and
speed included — is unchanged and no actuation command is published. -/
theorem idle_cycles_no_effect (detect : Frame → ℤ × ℤ) (stanley : ℤ → ℚ → ℚ → ℚ)
    (s : LKSState) (h : s.frame = none) :
    ∀ n : ℕ, runMany detect stanley s n = (s, []) := by
  intro n
  induction n with
  | zero => rfl
  | succ m ih =>
    show (let fst := runStep detect stanley s
          let rest := runMany detect stanley fst.1 m
          (rest.1, fst.2 ++ rest.2)) = (s, [])
    rw [runStep_idle detect stanley s h]
    simpa using ih

/-- Witness for C5: three idle iterations on the frameless fixture. -/
theorem idle_cycles_no_effect_witness :
    idleState.frame = none ∧
    runMany testDetect testStanley idleState 3 = (idleState, []) :=
  ⟨rfl, idle_cycles_no_effect testDetect testStanley idleState rfl 3⟩

/-- Claim C6: every active cycle publishes exactly one actuation command, whose
fields are the rounded clamped steering angle of the cycle and the rounded speed
after this cycle's `speedControl` update; the speed update takes the clamped
angle as input and happens before the emission (the published speed is the
post-update one). -/
theorem active_cycle_single_emission (detect : Frame → ℤ × ℤ)
    (stanley : ℤ → ℚ → ℚ → ℚ) (s : LKSState) (f : Frame)
    (hf : s.frame = some f) :
    (runStep detect stanley s).2.length = 1 ∧
    (runStep detect stanley s).2 =
      [{ angle := croundQ (cycleSteeringAngle detect stanley s f),
         speed := croundQ (runStep detect stanley s).1.xycarSpeed }] ∧
    (runStep detect stanley s).1 =
      speedControl { s with movingAverage := cycleFilter detect s f }
        (cycleSteeringAngle detect stanley s f) := by
  rw [runStep_active detect stanley s f hf]
  exact ⟨rfl, rfl, rfl⟩

/-- Witness for C6 at the concrete mid-lane fixture. -/
theorem active_cycle_single_emission_witness :
    testState.frame = some testFrame ∧
    ((runStep testDetect testStanley testState).2.length = 1 ∧
    (runStep testDetect testStanley testState).2 =
      [{ angle := croundQ (cycleSteeringAngle testDetect testStanley testState testFrame),
         speed := croundQ (runStep testDetect testStanley testState).1.xycarSpeed }] ∧
    (runStep testDetect testStanley testState).1 =
      speedControl
        { testState with movingAverage := cycleFilter testDetect testState testFrame }
        (cycleSteeringAngle testDetect testStanley testState testFrame)) :=
  ⟨rfl, active_cycle_single_emission testDetect testStanley testState testFrame rfl⟩

/-- Claim C7: in the concrete scenario with a 640-column frame, lane positions
(200, 440), fixed offset +6 and empty smoothing history, the midpoint sample is
320, the filter's result after that single sample is 320, the cross-track error
is 320 − 320 + 6 = 6, and the cycle's emitted steering (under the
error-reporting Stanley oracle with the 50-degree limit) is 6. -/
theorem scenario_mid_lane_error :
    midSample 200 440 = 320 ∧
    (testState.movingAverage.addSample 320).samples = [320] ∧
    (testState.movingAverage.addSample 320).getResult = 320 ∧
    estimatedPosition (testState.movingAverage.addSample 320) = 320 ∧
    errorFromMid 320 640 = 6 ∧
    (runStep testDetect testStanley testState).1.movingAverage.samples = [320] ∧
    (runStep testDetect testStanley testState).2.map MotorMessage.angle = [6] := by
  refine ⟨by decide, by decide, ?_, ?_, by decide, ?_, ?_⟩
  · norm_num [MovingAverageFilter.getResult, MovingAverageFilter.addSample, testState]
  · norm_num [estimatedPosition, truncQ, MovingAverageFilter.getResult,
      MovingAverageFilter.addSample, testState]
  · rw [runStep_active testDetect testStanley testState testFrame rfl]
    rw [(speedControl_preserves _ _).2.2.2.2.2.1]
    decide
  · rw [runStep_active testDetect testStanley testState testFrame rfl]
    norm_num [cycleSteeringAngle, cycleFilter, clampSteering, estimatedPosition,
      errorFromMid, midSample, truncQ, croundQ, testState, testFrame, testDetect,
      testStanley, MovingAverageFilter.addSample, MovingAverageFilter.getResult,
      max_def, min_def, Int.floor_eq_iff]

/-- Counterexample to claim C4: with history `[1, 2]` (capacity 3) and a fresh
sample 2 the filter mean is 5/3; the code's `static_cast<int32_t>` yields
center 1 while rounding to the nearest integer would yield 2, and the two
pipelines produce observably different commands (emitted angle 7 versus 8). -/
theorem center_truncated_not_rounded_cex :
    estimatedPosition (c4State.movingAverage.addSample 2) = 1 ∧
    round (c4State.movingAverage.addSample 2).getResult = 2 ∧
    estimatedPosition (c4State.movingAverage.addSample 2) ≠
      round (c4State.movingAverage.addSample 2).getResult ∧
    (runStep c4Detect testStanley c4State).2.map MotorMessage.angle = [7] ∧
    (specCycle round c4Detect testStanley c4State).2.map MotorMessage.angle = [8] := by
  have h1 : estimatedPosition (c4State.movingAverage.addSample 2) = 1 := by
    norm_num [estimatedPosition, truncQ, MovingAverageFilter.getResult,
      MovingAverageFilter.addSample, c4State, testState, Int.floor_eq_iff]
  have h2 : round (c4State.movingAverage.addSample 2).getResult = 2 := by
    norm_num [MovingAverageFilter.getResult, MovingAverageFilter.addSample,
      c4State, testState, round_eq, Int.floor_eq_iff]
  refine ⟨h1, h2, by rw [h1, h2]; decide, ?_, ?_⟩
  · rw [runStep_active c4Detect testStanley c4State { cols := 0 } rfl]
    norm_num [cycleSteeringAngle, cycleFilter, clampSteering, estimatedPosition,
      errorFromMid, midSample, truncQ, croundQ, c4State, testState, c4Detect,
      testStanley, MovingAverageFilter.addSample, MovingAverageFilter.getResult,
      max_def, min_def, Int.floor_eq_iff,
      show Int.tdiv 4 2 = 2 from by decide, show Int.tdiv 0 2 = 0 from by decide]
  · norm_num [specCycle, c4State, testState, c4Detect, testStanley, croundQ,
      MovingAverageFilter.addSample, MovingAverageFilter.getResult, round_eq,
      max_def, min_def, Int.floor_eq_iff,
      show Int.tdiv 4 2 = 2 from by decide, show Int.tdiv 0 2 = 0 from by decide]

/-- Claim C4 as amended: in every cycle the loop behaves exactly like the
spec's step-by-step pipeline with the smoothed center taken as the integer
truncation toward zero of `SmoothingFilter.getResult()` (the C++
`static_cast<int32_t>`), not as the nearest-integer rounding. -/
theorem runStep_eq_specCycle_trunc (detect : Frame → ℤ × ℤ)
    (stanley : ℤ → ℚ → ℚ → ℚ) (s : LKSState) :
    runStep detect stanley s = specCycle truncQ detect stanley s := by
  cases hf : s.frame with
  | none => simp [runStep, specCycle, hf]
  | some f =>
    simp only [runStep, specCycle, hf, drive, speedControl, midSample,
      estimatedPosition, errorFromMid, clampSteering]
    split <;> rfl

/-- Claim C8: neither `speedControl` branch clamps at the opposite bound: a
speed strictly above the maximum stays above it through one decelerating
update, and a speed strictly below the minimum stays below it through one
accelerating update. -/
theorem speedControl_no_opposite_clamp :
    (∃ (s : LKSState) (a : ℚ),
      s.xycarMaxSpeed < s.xycarSpeed ∧ s.xycarSpeedControlThreshold < |a| ∧
      (speedControl s a).xycarSpeed = s.xycarSpeed - s.decelerationStep ∧
      s.xycarMaxSpeed < (speedControl s a).xycarSpeed) ∧
    (∃ (s : LKSState) (a : ℚ),
      s.xycarSpeed < s.xycarMinSpeed ∧ |a| ≤ s.xycarSpeedControlThreshold ∧
      (speedControl s a).xycarSpeed = s.xycarSpeed + s.accelerationStep ∧
      (speedControl s a).xycarSpeed < s.xycarMinSpeed) := by
  constructor
  · refine ⟨c8FastState, 8, ?_, ?_, ?_, ?_⟩ <;>
      norm_num [speedControl_speed, c8FastState, c2State, testState,
        max_def, min_def]
  · refine ⟨c8SlowState, 0, ?_, ?_, ?_, ?_⟩ <;>
      norm_num [speedControl_speed, c8SlowState, c2State, testState,
        max_def, min_def]

/-- Truncated integer division by two agrees with rational division followed by
truncation toward zero. -/
theorem tdiv_two_eq_truncQ (z : ℤ) : Int.tdiv z 2 = truncQ ((z : ℚ) / 2) := by
  rcases le_or_lt 0 z with hz | hz
  · have hz' : (0 : ℚ) ≤ (z : ℚ) := by exact_mod_cast hz
    have hq : (0 : ℚ) ≤ (z : ℚ) / 2 := div_nonneg hz' (by norm_num)
    rw [truncQ, if_pos hq, Int.tdiv_eq_ediv hz (by norm_num)]
    rw [show ((2 : ℚ)) = ((2 : ℕ) : ℚ) by norm_num, Rat.floor_intCast_div_natCast]
    norm_num
  · have hzq : (z : ℚ) < 0 := by exact_mod_cast hz
    have hq : ¬ (0 : ℚ) ≤ (z : ℚ) / 2 := by
      push_neg
      linarith
    rw [truncQ, if_neg hq]
    have h2 : (0 : ℤ) ≤ -z := by omega
    have hcast : -((z : ℚ) / 2) = (((-z : ℤ) : ℚ)) / 2 := by
      push_cast
      ring
    calc Int.tdiv z 2
        = -Int.tdiv (-z) 2 := by rw [Int.neg_tdiv, neg_neg]
      _ = -((-z) / 2) := by rw [Int.tdiv_eq_ediv h2 (by norm_num)]
      _ = -⌊(((-z : ℤ) : ℚ)) / 2⌋ := by
          rw [show ((2 : ℚ)) = ((2 : ℕ) : ℚ) by norm_num,
            Rat.floor_intCast_div_natCast]
          norm_num
      _ = -⌊-((z : ℚ) / 2)⌋ := by rw [hcast]
      _ = ⌈(z : ℚ) / 2⌉ := by rw [Int.floor_neg, neg_neg]

/-- Claim C9: the midpoint sample is the truncation toward zero of the rational
`(leftX + rightX) / 2` — for an odd sum the fractional half is discarded, as at
`(200, 441)` where the sample is 320 — and for a nonnegative frame width the
center term subtracted in the cross-track error is `⌊width / 2⌋`. -/
theorem integer_division_in_sample_and_center :
    (∀ l r : ℤ, midSample l r = truncQ (((l + r : ℤ) : ℚ) / 2)) ∧
    midSample 200 441 = 320 ∧
    (∀ e w : ℤ, 0 ≤ w → errorFromMid e w = e - ⌊(w : ℚ) / 2⌋ + 6) := by
  refine ⟨fun l r => tdiv_two_eq_truncQ (l + r), by decide, fun e w hw => ?_⟩
  have hq : (0 : ℚ) ≤ (w : ℚ) / 2 := div_nonneg (by exact_mod_cast hw) (by norm_num)
  rw [errorFromMid, tdiv_two_eq_truncQ w, truncQ, if_pos hq]

/-- Witness for C9 at the 640-column frame. -/
theorem integer_division_in_sample_and_center_witness :
    (0 : ℤ) ≤ 640 ∧
    errorFromMid 320 640 = 320 - ⌊((640 : ℤ) : ℚ) / 2⌋ + 6 :=
  ⟨by norm_num, integer_division_in_sample_and_center.2.2 320 640 (by norm_num)⟩

end Xycar
